import Mathlib

/-
Verification of the synthesis-and-timing core of the AI-dub-lu dubbing
pipeline, as a shallow embedding of the Python sources.

Conventions of the embedding:
* Durations and timestamps are rationals (ℚ), measured in seconds.  The
  Python code keeps `AudioSegment` lengths in integer milliseconds and
  positions in float seconds; we work uniformly in seconds (the unit
  conversions `* 1000` / `/ 1000.0` in the source cancel out in the model).
* `pydub`'s `AudioSegment.speedup(playback_speed=r)` is modelled by its
  idealised effect on duration, `d ↦ d / r` — this is exactly the target
  the source itself prints (`len(audio)/1000/speed_ratio`).
* An `AudioSegment` is modelled by `Audio`: an opaque content tag plus a
  duration.  Time-stretching returns a new `Audio`; the original value is
  unchanged (pydub's `speedup` does not mutate its receiver).
* Python's stable `list.sort` / `sorted` is modelled by `List.insertionSort`
  (which is stable); a stable sort's output is uniquely determined by the
  key order and stability, so this is faithful to CPython's timsort.
* Python dicts are modelled by association lists in insertion order.
* External services (OpenAI, Google Translate, ElevenLabs TTS) are
  modelled as oracle functions passed in as parameters; a call that can
  fail returns `Except String`.
-/

/-- Model of a pydub `AudioSegment`: an opaque content tag plus a duration
in seconds. -/
structure Audio where
  tag : ℕ
  dur : ℚ
deriving DecidableEq

/-- One piece of an assembled output track: inserted silence or an audio
clip.  A track (`AudioSegment` built by concatenation) is a `List Piece`. -/
inductive Piece where
  | silence (sec : ℚ)
  | clip (a : Audio)
deriving DecidableEq

/-- An entry of the `audio_segments` list handed to
`TTSService._combine_audio_segments`: a dict with optional `"audio"` key
and `"start"` / `"end"` times (source field `end` is called `stop` here,
`end` being a Lean keyword). -/
structure AClip where
  audio : Option Audio
  start : ℚ
  stop : ℚ
deriving DecidableEq

/-- Total length of a track in seconds. -/
def trackLen : List Piece → ℚ
  | [] => 0
  | Piece.silence s :: rest => s + trackLen rest
  | Piece.clip a :: rest => a.dur + trackLen rest

/-- Start offset (in seconds) of the first clip carrying `tag` in a track,
if present. -/
def clipStart (tag : ℕ) : List Piece → Option ℚ
  | [] => none
  | Piece.silence s :: rest => (clipStart tag rest).map (fun q => s + q)
  | Piece.clip a :: rest =>
    if a.tag = tag then some 0 else (clipStart tag rest).map (fun q => a.dur + q)

/-- The speed-ratio clamp shared by both `_adjust_audio_speed`
implementations (`max_speed_adjustment = 0.30`): clamp `r` into
`[1 - 0.30, 1 + 0.30]`. -/
def clampRatio (r : ℚ) : ℚ :=
  if r > 1 + 3/10 then 1 + 3/10
  else if r < 1 - 3/10 then 1 - 3/10
  else r

/-- `TTSService._adjust_audio_speed` (src/services/tts_service.py:347-399):
guard on non-positive durations, compute `speed_ratio = current/target`,
clamp to ±30 %, and apply `speedup` ONLY when the (clamped) ratio exceeds 1;
otherwise the clip is returned unchanged.  Returns the resulting clip
duration for an input clip of duration `d` and target duration `t`. -/
def adjustAudioSpeed (d t : ℚ) : ℚ :=
  if d ≤ 0 ∨ t ≤ 0 then d
  else if clampRatio (d / t) > 1 then d / clampRatio (d / t) else d

/-- `TimingAwareDubber._adjust_audio_speed`
(src/services/timing_aware_dubber.py:267-308): same guard and clamp, but
`speedup` is applied whenever the clamped ratio differs from 1 — the
source's comment says "Use pydub's speedup method for both speed up and
slow down". -/
def timingAdjustAudioSpeed (d t : ℚ) : ℚ :=
  if d ≤ 0 ∨ t ≤ 0 then d
  else if clampRatio (d / t) ≠ 1 then d / clampRatio (d / t) else d

/-- Speed adjustment of an audio clip: a new clip with the same content tag
and the adjusted duration (`TTSService` variant). -/
def adjustAudio (a : Audio) (target : ℚ) : Audio :=
  ⟨a.tag, adjustAudioSpeed a.dur target⟩

/-- The accumulation loop of `TTSService._combine_audio_segments`
(src/services/tts_service.py:416-457).  `i` is the `enumerate` index over
the sorted segment list, `pos` the `current_position` in seconds, `acc`
the track built so far.  Records without an `"audio"` entry are passed
over (but still advance the index).  For `i = 0` a leading gap is added
when `original_start > 0`; for later records a gap of
`original_start - current_position` is added when the position lags. -/
def combineLoop (i : ℕ) (pos : ℚ) (acc : List Piece) : List AClip → List Piece
  | [] => acc
  | seg :: rest =>
    match seg.audio with
    | none => combineLoop (i + 1) pos acc rest
    | some a =>
      if i = 0 then
        if 0 < seg.start then
          combineLoop (i + 1) (seg.start + a.dur)
            (acc ++ [Piece.silence seg.start, Piece.clip a]) rest
        else
          combineLoop (i + 1) (pos + a.dur) (acc ++ [Piece.clip a]) rest
      else
        if pos < seg.start then
          combineLoop (i + 1) (seg.start + a.dur)
            (acc ++ [Piece.silence (seg.start - pos), Piece.clip a]) rest
        else
          combineLoop (i + 1) (pos + a.dur) (acc ++ [Piece.clip a]) rest

/-- `sorted(audio_segments, key=lambda x: x.get("start", 0))`: Python's
stable sort by start time. -/
def sortClips (clips : List AClip) : List AClip :=
  List.insertionSort (fun a b => a.start ≤ b.start) clips

/-- Body of the `try:` block of `TTSService._combine_audio_segments`
(src/services/tts_service.py:402-459): empty input yields a one-second
silent placeholder, otherwise the segments are sorted by start time and
accumulated.  The body is total, so the model never takes the error
branch. -/
def combineBody (clips : List AClip) : Except String (List Piece) :=
  if clips.isEmpty then Except.ok [Piece.silence 1]
  else Except.ok (combineLoop 0 0 [] (sortClips clips))

/-- `TTSService._combine_audio_segments` with its `except:` handler
(src/services/tts_service.py:461-464): any failure of the body is absorbed
by returning a one-second silent track. -/
def combineAudioSegments (clips : List AClip) : List Piece :=
  match combineBody clips with
  | Except.ok t => t
  | Except.error _ => [Piece.silence 1]

lemma clampRatio_of_le_one {r : ℚ} (h : r ≤ 1) : clampRatio r ≤ 1 := by
  unfold clampRatio
  split_ifs <;> linarith

lemma clampRatio_of_gt_one {r : ℚ} (h : 1 < r) :
    1 < clampRatio r ∧ clampRatio r ≤ 13/10 ∧ clampRatio r ≤ r := by
  unfold clampRatio
  split_ifs <;> constructor <;> try constructor
  all_goals linarith

/-- Claim C1 (counterexample): the claim states that a clip is never slowed
down (`d' = d` whenever `d ≤ t`), but `TimingAwareDubber._adjust_audio_speed`
applies the clamped time-stretch in both directions: for a 1-second clip
with a 2-second target the ratio 0.5 is clamped to 0.7 and the clip is
stretched to 10/7 s ≠ 1 s. -/
theorem speed_correction_slowdown_counterexample :
    (1 : ℚ) ≤ 2 ∧ timingAdjustAudioSpeed 1 2 = 10/7 ∧ (10/7 : ℚ) ≠ 1 := by
  refine ⟨by norm_num, ?_, by norm_num⟩
  norm_num [timingAdjustAudioSpeed, clampRatio]


/-- Claim C1 (amended): for positive synthesized duration `d` and target
`t`, the Timed Synthesizer actually used by the AI pipeline
(`TTSService._adjust_audio_speed`) never slows a clip down (`d' = d` when
`d ≤ t`) and speeds up within the clamp (`d' ∈ [t/1.30, d]` when `d > t`);
the legacy `TimingAwareDubber._adjust_audio_speed` agrees with it when
`t ≤ d` but, when `d < t`, slows the clip to `min t (d / 0.70)` instead of
leaving it unchanged. -/
theorem speed_correction_bounds (d t : ℚ) (hd : 0 < d) (ht : 0 < t) :
    (d ≤ t → adjustAudioSpeed d t = d) ∧
    (t < d → t / (1 + 3/10) ≤ adjustAudioSpeed d t ∧ adjustAudioSpeed d t ≤ d) ∧
    (t ≤ d → timingAdjustAudioSpeed d t = adjustAudioSpeed d t) ∧
    (d < t → timingAdjustAudioSpeed d t = min t (d / (1 - 3/10))) := by
  have hd0 : d ≠ 0 := ne_of_gt hd
  have ht0 : t ≠ 0 := ne_of_gt ht
  have hguard : ¬ (d ≤ 0 ∨ t ≤ 0) := by push_neg; exact ⟨hd, ht⟩
  have hkey : d / (d / t) = t := by field_simp
  refine ⟨?_, ?_, ?_, ?_⟩
  · intro hle
    have hr : d / t ≤ 1 := (div_le_one ht).mpr hle
    have hc := clampRatio_of_le_one hr
    unfold adjustAudioSpeed
    rw [if_neg hguard, if_neg (by linarith)]
  · intro hlt
    have hr : 1 < d / t := (one_lt_div ht).mpr hlt
    obtain ⟨hc1, hc2, hc3⟩ := clampRatio_of_gt_one hr
    have hcpos : 0 < clampRatio (d / t) := by linarith
    unfold adjustAudioSpeed
    rw [if_neg hguard, if_pos hc1]
    constructor
    · rw [div_le_div_iff₀ (by norm_num) hcpos]
      nlinarith [mul_le_mul_of_nonneg_left hc2 ht.le]
    · exact div_le_self hd.le hc1.le
  · intro hle
    have hr1 : 1 ≤ d / t := (one_le_div ht).mpr hle
    rcases eq_or_lt_of_le hr1 with heq | hgt
    · have hcl : clampRatio (d / t) = 1 := by
        unfold clampRatio
        rw [if_neg (by linarith), if_neg (by linarith)]
        linarith
      unfold timingAdjustAudioSpeed adjustAudioSpeed
      rw [if_neg hguard, if_neg hguard, hcl]
      simp
    · obtain ⟨hc1, _, _⟩ := clampRatio_of_gt_one hgt
      unfold timingAdjustAudioSpeed adjustAudioSpeed
      rw [if_neg hguard, if_neg hguard, if_pos (ne_of_gt hc1), if_pos hc1]
  · intro hlt
    have hrpos : 0 < d / t := div_pos hd ht
    have hr1 : d / t < 1 := (div_lt_one ht).mpr hlt
    by_cases hr7 : d / t < 1 - 3/10
    · have hcl : clampRatio (d / t) = 1 - 3/10 := by
        unfold clampRatio
        rw [if_neg (by linarith), if_pos hr7]
      have hdt : d < t * (7/10) := by
        have := (div_lt_iff₀ ht).mp (by linarith : d / t < (7:ℚ)/10)
        linarith
      have hmin : d / (1 - 3/10) ≤ t := by
        rw [div_le_iff₀ (by norm_num)]
        linarith
      unfold timingAdjustAudioSpeed
      rw [if_neg hguard, hcl, if_pos (by norm_num), min_eq_right hmin]
    · push_neg at hr7
      have hcl : clampRatio (d / t) = d / t := by
        unfold clampRatio
        rw [if_neg (by linarith), if_neg (not_lt.mpr hr7)]
      have hmin : t ≤ d / (1 - 3/10) := by
        rw [le_div_iff₀ (by norm_num)]
        have := (le_div_iff₀ ht).mp hr7
        linarith
      unfold timingAdjustAudioSpeed
      rw [if_neg hguard, hcl, if_pos (ne_of_lt hr1), hkey, min_eq_left hmin]

/-- Claim C1 (witness): the amended theorem instantiated at `d = 3`,
`t = 1` (speed-up clamped to 1.3) and checked concretely. -/
theorem speed_correction_bounds_witness :
    (0:ℚ) < 3 ∧ (0:ℚ) < 1 ∧
    (((3:ℚ) ≤ 1 → adjustAudioSpeed 3 1 = 3) ∧
     ((1:ℚ) < 3 → (1:ℚ) / (1 + 3/10) ≤ adjustAudioSpeed 3 1 ∧ adjustAudioSpeed 3 1 ≤ 3) ∧
     ((1:ℚ) ≤ 3 → timingAdjustAudioSpeed 3 1 = adjustAudioSpeed 3 1) ∧
     ((3:ℚ) < 1 → timingAdjustAudioSpeed 3 1 = min 1 (3 / (1 - 3/10)))) :=
  ⟨by norm_num, by norm_num, speed_correction_bounds 3 1 (by norm_num) (by norm_num)⟩

/-- Claim C3: the round-trip scenario.  Clips with original timings
(0,2), (2,5), (6,7) and actual durations 2.5 s, 2.0 s, 0.5 s assemble to a
track where clip B (tag 1) starts at 2.5 s (clip A overran by 0.5 s, so B
is appended with no gap), clip C (tag 2) starts at exactly 6.0 s (1.5 s of
silence is inserted because the position 4.5 lags behind 6), and the total
track length is 6.5 s. -/
theorem timeline_roundtrip_scenario :
    clipStart 1 (combineAudioSegments
      [⟨some ⟨0, 5/2⟩, 0, 2⟩, ⟨some ⟨1, 2⟩, 2, 5⟩, ⟨some ⟨2, 1/2⟩, 6, 7⟩]) = some (5/2) ∧
    clipStart 2 (combineAudioSegments
      [⟨some ⟨0, 5/2⟩, 0, 2⟩, ⟨some ⟨1, 2⟩, 2, 5⟩, ⟨some ⟨2, 1/2⟩, 6, 7⟩]) = some 6 ∧
    trackLen (combineAudioSegments
      [⟨some ⟨0, 5/2⟩, 0, 2⟩, ⟨some ⟨1, 2⟩, 2, 5⟩, ⟨some ⟨2, 1/2⟩, 6, 7⟩]) = 13/2 := by
  refine ⟨?_, ?_, ?_⟩ <;>
    norm_num [combineAudioSegments, combineBody, sortClips, combineLoop, clipStart, trackLen]

/-- Claim C8: an empty clip list given to the Timeline Assembler yields a
single one-second silent placeholder track, taken from the normal (non
exceptional) branch of `_combine_audio_segments`. -/
theorem empty_clip_list_silent_placeholder :
    combineBody [] = Except.ok [Piece.silence 1] ∧
    combineAudioSegments [] = [Piece.silence 1] :=
  ⟨rfl, rfl⟩

lemma combineLoop_succ_index (l : List AClip) :
    ∀ (i j : ℕ) (pos : ℚ) (acc : List Piece),
      combineLoop (i + 1) pos acc l = combineLoop (j + 1) pos acc l := by
  induction l with
  | nil => intro i j pos acc; rfl
  | cons c rest ih =>
    intro i j pos acc
    cases hA : c.audio with
    | none =>
      simp only [combineLoop, hA]
      exact ih (i + 1) (j + 1) pos acc
    | some a =>
      simp only [combineLoop, hA]
      rw [if_neg (Nat.succ_ne_zero i), if_neg (Nat.succ_ne_zero j)]
      by_cases hp : pos < c.start
      · rw [if_pos hp, if_pos hp]
        exact ih (i + 1) (j + 1) _ _
      · rw [if_neg hp, if_neg hp]
        exact ih (i + 1) (j + 1) _ _

lemma combineLoop_one_zero (l : List AClip) :
    ∀ (i : ℕ) (acc : List Piece), combineLoop (i + 1) 0 acc l = combineLoop 0 0 acc l := by
  induction l with
  | nil => intro i acc; rfl
  | cons c rest ih =>
    intro i acc
    cases hA : c.audio with
    | none =>
      simp only [combineLoop, hA]
      exact combineLoop_succ_index rest (i + 1) 0 0 acc
    | some a =>
      simp only [combineLoop, hA]
      rw [if_neg (Nat.succ_ne_zero i)]
      simp only [if_true]
      by_cases hs : (0:ℚ) < c.start
      · rw [if_pos hs, if_pos hs, sub_zero]
        exact combineLoop_succ_index rest (i + 1) 0 _ _
      · rw [if_neg hs, if_neg hs]
        exact combineLoop_succ_index rest (i + 1) 0 _ _

lemma combineLoop_filter_aux (l : List AClip) :
    ∀ (i : ℕ) (pos : ℚ) (acc : List Piece),
      combineLoop (i + 1) pos acc l
        = combineLoop (i + 1) pos acc (l.filter (fun c => c.audio.isSome)) := by
  induction l with
  | nil => intro i pos acc; rfl
  | cons c rest ih =>
    intro i pos acc
    cases hA : c.audio with
    | none =>
      have hf : (c :: rest).filter (fun c => c.audio.isSome)
          = rest.filter (fun c => c.audio.isSome) := by
        simp [List.filter_cons, hA]
      rw [hf]
      simp only [combineLoop, hA]
      rw [combineLoop_succ_index rest (i + 1) i pos acc]
      exact ih i pos acc
    | some a =>
      have hf : (c :: rest).filter (fun c => c.audio.isSome)
          = c :: rest.filter (fun c => c.audio.isSome) := by
        simp [List.filter_cons, hA]
      rw [hf]
      simp only [combineLoop, hA]
      rw [if_neg (Nat.succ_ne_zero i), if_neg (Nat.succ_ne_zero i)]
      by_cases hp : pos < c.start
      · rw [if_pos hp, if_pos hp]
        exact ih (i + 1) _ _
      · rw [if_neg hp, if_neg hp]
        exact ih (i + 1) _ _

lemma combineLoop_skip_noaudio (l : List AClip) :
    ∀ acc, combineLoop 0 0 acc l = combineLoop 0 0 acc (l.filter (fun c => c.audio.isSome)) := by
  induction l with
  | nil => intro acc; rfl
  | cons c rest ih =>
    intro acc
    cases hA : c.audio with
    | none =>
      have hf : (c :: rest).filter (fun c => c.audio.isSome)
          = rest.filter (fun c => c.audio.isSome) := by
        simp [List.filter_cons, hA]
      rw [hf]
      simp only [combineLoop, hA]
      rw [combineLoop_one_zero rest 0 acc]
      exact ih acc
    | some a =>
      have hf : (c :: rest).filter (fun c => c.audio.isSome)
          = c :: rest.filter (fun c => c.audio.isSome) := by
        simp [List.filter_cons, hA]
      rw [hf]
      simp only [combineLoop, hA]
      simp only [if_true]
      by_cases hs : (0:ℚ) < c.start
      · rw [if_pos hs, if_pos hs]
        exact combineLoop_filter_aux rest 0 _ _
      · rw [if_neg hs, if_neg hs]
        exact combineLoop_filter_aux rest 0 _ _

/-- Claim C10: the audio-combination step is total at its interface.  The
`try:` body always succeeds in the model (the `except:` silent-track branch
is never needed), and records lacking an `"audio"` entry are skipped: the
accumulation over the sorted clip list equals the accumulation over the
sorted list with the audio-less records filtered out. -/
theorem combine_segments_total_skip (clips : List AClip) :
    (∃ t, combineBody clips = Except.ok t ∧ combineAudioSegments clips = t) ∧
    combineLoop 0 0 [] (sortClips clips)
      = combineLoop 0 0 [] ((sortClips clips).filter (fun c => c.audio.isSome)) := by
  constructor
  · by_cases h : clips.isEmpty
    · exact ⟨[Piece.silence 1], by simp [combineBody, h], by simp [combineAudioSegments, combineBody, h]⟩
    · exact ⟨combineLoop 0 0 [] (sortClips clips), by simp [combineBody, h],
        by simp [combineAudioSegments, combineBody, h]⟩
  · exact combineLoop_skip_noaudio (sortClips clips) []

/-- Python's `int()` applied to a rational: truncation toward zero. -/
def pyInt (q : ℚ) : ℤ :=
  if q < 0 then -⌊-q⌋ else ⌊q⌋

/-- `Translator._calculate_target_word_count`
(src/services/translator.py:94-100) and the identical
`TimingAwareDubber._calculate_target_word_count`
(src/services/timing_aware_dubber.py:101-110):
`duration_minutes = duration / 60.0`,
`target_words = int(duration_minutes * 150)`, `max(target_words, 1)`. -/
def calculateTargetWordCount (d : ℚ) : ℤ :=
  max (pyInt (d / 60 * 150)) 1

/-- The spec's formula for the target word count, following its words:
`max(1, round(duration_seconds / 60 * 150))` with rounding to the nearest
integer. -/
def targetWordCountSpec (d : ℚ) : ℤ :=
  max 1 (round (d / 60 * 150))

/-- Claim C4 (counterexample): at `d = 0.7 s` the code truncates
`0.7 / 60 * 150 = 1.75` to `1`, while the claimed formula rounds it to
`2`. -/
theorem target_word_count_round_counterexample :
    calculateTargetWordCount (7/10) = 1 ∧ targetWordCountSpec (7/10) = 2 ∧
    calculateTargetWordCount (7/10) ≠ targetWordCountSpec (7/10) := by
  have h1 : calculateTargetWordCount (7/10) = 1 := by
    norm_num [calculateTargetWordCount, pyInt]
  have h2 : targetWordCountSpec (7/10) = 2 := by
    norm_num [targetWordCountSpec, round_eq]
  exact ⟨h1, h2, by rw [h1, h2]; decide⟩

/-- Claim C4 (amended): for every non-negative segment duration `d`, the
target word count equals `max(1, floor(d / 60 * 150))` — truncation, not
rounding, of the words-per-minute product (the constant 150 is exact). -/
theorem target_word_count_formula (d : ℚ) (hd : 0 ≤ d) :
    calculateTargetWordCount d = max 1 ⌊d / 60 * 150⌋ ∧
    1 ≤ calculateTargetWordCount d := by
  have hq : (0:ℚ) ≤ d / 60 * 150 := by positivity
  have hp : pyInt (d / 60 * 150) = ⌊d / 60 * 150⌋ := by
    unfold pyInt
    rw [if_neg (not_lt.mpr hq)]
  constructor
  · rw [calculateTargetWordCount, hp, max_comm]
  · exact le_max_right _ _

/-- Claim C4 (witness): the amended theorem applied at `d = 2` seconds
(`2 / 60 * 150 = 5` words). -/
theorem target_word_count_formula_witness :
    (0:ℚ) ≤ 2 ∧
    (calculateTargetWordCount 2 = max 1 ⌊(2:ℚ) / 60 * 150⌋ ∧
     1 ≤ calculateTargetWordCount 2) :=
  ⟨by norm_num, target_word_count_formula 2 (by norm_num)⟩

/-- A diarization turn from the PyAnnote speaker timeline
(`{'start', 'end', 'speaker'}`; the source's `end` field is `stop` here). -/
structure Turn where
  start : ℚ
  stop : ℚ
  speaker : String
deriving DecidableEq

/-- The scan loop of `AIDubber._align_whisper_with_pyannote`
(src/services/ai_dubber.py:226-229): first turn whose closed interval
satisfies `turn['start'] <= segment_mid <= turn['end']`. -/
def firstContaining (mid : ℚ) : List Turn → Option Turn
  | [] => none
  | t :: rest =>
    if t.start ≤ mid ∧ mid ≤ t.stop then some t else firstContaining mid rest

/-- The nearest-turn key
`min(abs(x['start'] - segment_mid), abs(x['end'] - segment_mid))`. -/
def turnDist (mid : ℚ) (t : Turn) : ℚ :=
  min |t.start - mid| |t.stop - mid|

/-- Python's `min(speaker_timeline, key=...)`: the earliest turn attaining
the minimal key. -/
def closestTurn (mid : ℚ) : List Turn → Option Turn
  | [] => none
  | t :: rest =>
    match closestTurn mid rest with
    | none => some t
    | some u => if turnDist mid t ≤ turnDist mid u then some t else some u

/-- The value of `assigned_speaker` after the containment scan: initialised
to the fallback `'SPEAKER_00'`, overwritten by the first containing turn. -/
def loopAssigned (mid : ℚ) (tl : List Turn) : String :=
  match firstContaining mid tl with
  | some t => t.speaker
  | none => "SPEAKER_00"

/-- Per-segment speaker assignment of
`AIDubber._align_whisper_with_pyannote` (src/services/ai_dubber.py:218-235):
midpoint containment scan, then — whenever the scan result still reads
`'SPEAKER_00'` and the timeline is non-empty — the nearest-turn fallback
`min(speaker_timeline, key=...)`. -/
def assignSpeakerLabel (tl : List Turn) (segStart segStop : ℚ) : String :=
  if loopAssigned ((segStart + segStop) / 2) tl = "SPEAKER_00" ∧ tl ≠ [] then
    match closestTurn ((segStart + segStop) / 2) tl with
    | some u => u.speaker
    | none => loopAssigned ((segStart + segStop) / 2) tl
  else loopAssigned ((segStart + segStop) / 2) tl

/-- Label of the nearest turn (the spec's fallback), `'SPEAKER_00'` on an
empty timeline. -/
def closestSpeakerLabel (mid : ℚ) (tl : List Turn) : String :=
  match closestTurn mid tl with
  | some u => u.speaker
  | none => "SPEAKER_00"

/-- First turn whose half-open interval `[start, end)` contains `mid` —
the containment test as the spec words it. -/
def firstContainingHO (mid : ℚ) : List Turn → Option Turn
  | [] => none
  | t :: rest =>
    if t.start ≤ mid ∧ mid < t.stop then some t else firstContainingHO mid rest

/-- The claim's per-segment assignment rule, following the spec's words:
first turn whose `[start, end)` contains the midpoint wins; otherwise the
nearest turn. -/
def assignSpeakerSpec (tl : List Turn) (segStart segStop : ℚ) : String :=
  match firstContainingHO ((segStart + segStop) / 2) tl with
  | some t => t.speaker
  | none => closestSpeakerLabel ((segStart + segStop) / 2) tl

/-- The amended assignment rule: closed-interval containment, and the
containing turn only wins when its label is not the sentinel
`'SPEAKER_00'`. -/
def assignSpeakerAmended (tl : List Turn) (segStart segStop : ℚ) : String :=
  match firstContaining ((segStart + segStop) / 2) tl with
  | some t =>
    if t.speaker = "SPEAKER_00" then closestSpeakerLabel ((segStart + segStop) / 2) tl
    else t.speaker
  | none => closestSpeakerLabel ((segStart + segStop) / 2) tl

/-- Claim C5 (counterexample): with turns `[0,2] → SPEAKER_01`,
`[2,4] → SPEAKER_02` and a segment `(1,3)` whose midpoint is exactly `2`,
the code's closed-interval test assigns `SPEAKER_01`, while the claimed
half-open rule `[start, end)` assigns `SPEAKER_02`. -/
theorem speaker_alignment_boundary_counterexample :
    assignSpeakerLabel [⟨0, 2, "SPEAKER_01"⟩, ⟨2, 4, "SPEAKER_02"⟩] 1 3 = "SPEAKER_01" ∧
    assignSpeakerSpec [⟨0, 2, "SPEAKER_01"⟩, ⟨2, 4, "SPEAKER_02"⟩] 1 3 = "SPEAKER_02" ∧
    "SPEAKER_01" ≠ "SPEAKER_02" := by
  refine ⟨?_, ?_, by decide⟩
  · norm_num [assignSpeakerLabel, loopAssigned, firstContaining]
    intro hcon
    exact absurd hcon (by decide)
  · norm_num [assignSpeakerSpec, firstContainingHO]

/-- Claim C5 (amended): on every non-empty timeline the code's assignment
equals the amended rule — the first turn whose closed interval
`[start, end]` contains the midpoint determines the label, except that a
containing turn labelled with the sentinel `'SPEAKER_00'` is overridden by
(and a midpoint contained in no turn falls back to) the earliest turn
minimizing `min(|start - mid|, |end - mid|)`. -/
theorem speaker_alignment_characterization (tl : List Turn) (segStart segStop : ℚ)
    (h : tl ≠ []) :
    assignSpeakerLabel tl segStart segStop = assignSpeakerAmended tl segStart segStop := by
  unfold assignSpeakerLabel assignSpeakerAmended
  cases hfc : firstContaining ((segStart + segStop) / 2) tl with
  | none =>
    rw [if_pos ⟨by rw [loopAssigned, hfc], h⟩]
    unfold closestSpeakerLabel
    cases hct : closestTurn ((segStart + segStop) / 2) tl with
    | none => rw [loopAssigned, hfc]
    | some u => rfl
  | some t =>
    dsimp only
    by_cases hsp : t.speaker = "SPEAKER_00"
    · rw [if_pos ⟨by rw [loopAssigned, hfc]; exact hsp, h⟩, if_pos hsp]
      unfold closestSpeakerLabel
      cases hct : closestTurn ((segStart + segStop) / 2) tl with
      | none => rw [loopAssigned, hfc]; exact hsp
      | some u => rfl
    · rw [if_neg, if_neg hsp]
      · rw [loopAssigned, hfc]
      · intro hcon
        rw [loopAssigned, hfc] at hcon
        exact hsp hcon.1

/-- Claim C5 (witness): the characterization applied to a concrete
one-turn timeline. -/
theorem speaker_alignment_characterization_witness :
    ([⟨0, 2, "SPEAKER_03"⟩] : List Turn) ≠ [] ∧
    assignSpeakerLabel [⟨0, 2, "SPEAKER_03"⟩] 0 2
      = assignSpeakerAmended [⟨0, 2, "SPEAKER_03"⟩] 0 2 :=
  ⟨by decide, speaker_alignment_characterization [⟨0, 2, "SPEAKER_03"⟩] 0 2 (by decide)⟩

/-- Python's `str.lower()` (ASCII case folding), implemented on the
character list so it evaluates in the kernel. -/
def strLower (s : String) : String :=
  ⟨s.data.map Char.toLower⟩

/-- Whether `ndl` matches at the head of `hay`. -/
def leadingMatch : List Char → List Char → Bool
  | [], _ => true
  | _ :: _, [] => false
  | a :: as, b :: bs => a == b && leadingMatch as bs

/-- Whether `ndl` occurs somewhere in `hay`. -/
def subOccurs (ndl : List Char) : List Char → Bool
  | [] => ndl.isEmpty
  | c :: rest => leadingMatch ndl (c :: rest) || subOccurs ndl rest

/-- Python's `needle in hay` substring test. -/
def strContains (hay needle : String) : Bool :=
  subOccurs needle.data hay.data

/-- Python's `str.strip()`: drop leading and trailing whitespace. -/
def strTrim (s : String) : String :=
  ⟨((s.data.dropWhile Char.isWhitespace).reverse.dropWhile Char.isWhitespace).reverse⟩

/-- An ElevenLabs voice record as consumed by the matcher:
`voice_id`, `name`, the `labels` dict (gender/age/description/accent tags)
and the language codes of `verified_languages`. -/
structure Voice where
  voice_id : String
  name : String
  labels : List (String × String)
  verified_languages : List String
deriving DecidableEq

/-- A speaker's acoustic profile: the feature-name → value dict built by
`_analyze_speakers_ai` (pitch_mean, energy_mean, …). -/
abbrev Profile := List (String × ℚ)

/-- `dict.get(key, default)` on an association list. -/
def dictGet (m : List (String × ℚ)) (k : String) : ℚ :=
  ((m.find? (fun e => e.1 == k)).map Prod.snd).getD 0

/-- `labels.get(key, '')` on the voice's labels dict. -/
def labelGet (m : List (String × String)) (k : String) : String :=
  ((m.find? (fun e => e.1 == k)).map Prod.snd).getD ""

/-- Language-support test of `_match_speakers_to_voices`
(src/services/ai_dubber.py:527-548): the voice has a non-empty
`verified_languages` list containing the target language
(case-insensitive).  An absent or empty list means the voice is not
eligible. -/
def supportsLanguage (lang : String) (v : Voice) : Bool :=
  v.verified_languages.any (fun l => strLower l == strLower lang)

/-- `AIDubber._calculate_voice_match_score`
(src/services/ai_dubber.py:605-675): additive heuristic over gender/pitch,
age/spectral-centroid, description/energy and accent labels, plus
label-independent energy and speaking-rate bonuses. -/
def calculateVoiceMatchScore (p : Profile) (v : Voice) : ℚ :=
  let pitch := dictGet p "pitch_mean"
  let energy := dictGet p "energy_mean"
  let centroid := dictGet p "spectral_centroid_mean"
  let rate := dictGet p "speaking_rate"
  let labelScore :=
    if v.labels = [] then 0
    else
      let g := strLower (labelGet v.labels "gender")
      let pitchScore :=
        if pitch > 0 then
          if (g = "female" ∨ g = "woman") ∧ 150 < pitch ∧ pitch < 250 then 3
          else if (g = "male" ∨ g = "man") ∧ 80 < pitch ∧ pitch < 160 then 3
          else if (g = "female" ∨ g = "woman") ∧ pitch < 150 then 1
          else if (g = "male" ∨ g = "man") ∧ pitch > 160 then 1
          else 0
        else 0
      let age := strLower (labelGet v.labels "age")
      let ageScore :=
        if age ≠ "" ∧ centroid > 0 then
          if strContains age "young" ∧ centroid > 2000 then 2
          else if strContains age "mature" ∧ centroid < 1500 then 2
          else if strContains age "young" ∧ centroid < 1500 then 1/2
          else if strContains age "mature" ∧ centroid > 2000 then 1/2
          else 0
        else 0
      let descScore :=
        if energy > 1/10 then
          if strContains (strLower (labelGet v.labels "description")) "energetic" then 3/2
          else if strContains (strLower (labelGet v.labels "description")) "calm" then 1/2
          else 0
        else 0
      let accentScore := if strLower (labelGet v.labels "accent") ≠ "" then 1/2 else 0
      pitchScore + ageScore + descScore + accentScore
  let energyScore :=
    if energy > 15/100 then 1 else if energy > 5/100 then 1/2 else 0
  let rateScore := if rate > 1/10 then 1/2 else 0
  labelScore + energyScore + rateScore

/-- Per-speaker candidate list, scored and stably sorted by score
descending (`candidate_voices.sort(key=lambda x: x[1], reverse=True)`,
src/services/ai_dubber.py:569-575). -/
def sortCandidates (score : Profile → Voice → ℚ) (eligible : List Voice) (p : Profile) :
    List (Voice × ℚ) :=
  List.insertionSort (fun a b => b.2 ≤ a.2) (eligible.map (fun v => (v, score p v)))

/-- The scan for the best not-yet-used voice
(src/services/ai_dubber.py:577-583). -/
def pickVoice (used : List String) : List (Voice × ℚ) → Option (Voice × ℚ)
  | [] => none
  | (v, s) :: rest =>
    if v.voice_id ∈ used then pickVoice used rest else some (v, s)

/-- One speaker's voice selection: the best unused candidate, or — when
every eligible voice is already used — the top-scoring candidate
(`candidate_voices[0]`, src/services/ai_dubber.py:585-587). -/
def selectVoice (score : Profile → Voice → ℚ) (eligible : List Voice)
    (used : List String) (p : Profile) : Option (Voice × ℚ) :=
  match pickVoice used (sortCandidates score eligible p) with
  | some vs => some vs
  | none => (sortCandidates score eligible p).head?

/-- The speaker loop of `_match_speakers_to_voices`
(src/services/ai_dubber.py:561-597): each profiled speaker (in dict order)
gets the best unused voice, used voices are tracked, and exhaustion falls
back to `candidate_voices[0]` without marking it used; an empty candidate
list raises (`No suitable voice found`). -/
def assignVoices (score : Profile → Voice → ℚ) (eligible : List Voice) :
    List (String × Profile) → List String → Except String (List (String × Voice × ℚ))
  | [], _ => Except.ok []
  | (sp, p) :: rest, used =>
    match pickVoice used (sortCandidates score eligible p) with
    | some (v, s) =>
      (assignVoices score eligible rest (v.voice_id :: used)).map
        (fun out => (sp, v, s) :: out)
    | none =>
      match sortCandidates score eligible p with
      | [] => Except.error ("No suitable voice found for speaker " ++ sp)
      | (v, s) :: _ =>
        (assignVoices score eligible rest used).map (fun out => (sp, v, s) :: out)

/-- Body of the `try:` block of `AIDubber._match_speakers_to_voices`
(src/services/ai_dubber.py:518-599): filter the catalog by language
support — raising `No voices found supporting language` when nothing
qualifies — then run the greedy assignment. -/
def matchSpeakersToVoicesBody (profiles : List (String × Profile)) (voices : List Voice)
    (lang : String) : Except String (List (String × Voice × ℚ)) :=
  if (voices.filter (supportsLanguage lang)).isEmpty then
    Except.error ("No voices found supporting language: " ++ lang)
  else
    assignVoices calculateVoiceMatchScore (voices.filter (supportsLanguage lang)) profiles []

/-- `AIDubber._match_speakers_to_voices` including its `except:` handler
(src/services/ai_dubber.py:601-603): ANY exception — including the
language hard-failure raised inside the body — is caught, logged, and an
empty mapping is returned. -/
def matchSpeakersToVoices (profiles : List (String × Profile)) (voices : List Voice)
    (lang : String) : List (String × Voice × ℚ) :=
  match matchSpeakersToVoicesBody profiles voices lang with
  | Except.ok m => m
  | Except.error _ => []

/-- Default voice id (`TTS_VOICE_ID` env default, src/services/tts_service.py:12). -/
def defaultVoiceId : String := "21m00Tcm4TlvDq8ikWAM"

/-- The language/gender → voice table of
`TTSService._get_voice_for_language_and_gender`
(src/services/tts_service.py:96-160). -/
def voiceMapping : List (String × List (String × String)) :=
  [ ("en", [("male", "ErXwobaYiN019PkySvjV"), ("female", "21m00Tcm4TlvDq8ikWAM"),
            ("unknown", "21m00Tcm4TlvDq8ikWAM")]),
    ("es", [("male", "ErXwobaYiN019PkySvjV"), ("female", "EXAVITQu4vr4xnSDxMaL"),
            ("unknown", "ErXwobaYiN019PkySvjV")]),
    ("fr", [("male", "yoZ06aMxZJJ28mfd3POQ"), ("female", "AZnzlk1XvdvUeBnXmlld"),
            ("unknown", "yoZ06aMxZJJ28mfd3POQ")]),
    ("de", [("male", "AZnzlk1XvdvUeBnXmlld"), ("female", "EXAVITQu4vr4xnSDxMaL"),
            ("unknown", "AZnzlk1XvdvUeBnXmlld")]),
    ("it", [("male", "ErXwobaYiN019PkySvjV"), ("female", "EXAVITQu4vr4xnSDxMaL"),
            ("unknown", "EXAVITQu4vr4xnSDxMaL")]),
    ("pt", [("male", "VR6AewLTigWG4xSOukaG"), ("female", "21m00Tcm4TlvDq8ikWAM"),
            ("unknown", "VR6AewLTigWG4xSOukaG")]),
    ("ru", [("male", "VR6AewLTigWG4xSOukaG"), ("female", "21m00Tcm4TlvDq8ikWAM"),
            ("unknown", "VR6AewLTigWG4xSOukaG")]),
    ("ja", [("male", "VR6AewLTigWG4xSOukaG"), ("female", "21m00Tcm4TlvDq8ikWAM"),
            ("unknown", "VR6AewLTigWG4xSOukaG")]),
    ("ko", [("male", "VR6AewLTigWG4xSOukaG"), ("female", "21m00Tcm4TlvDq8ikWAM"),
            ("unknown", "VR6AewLTigWG4xSOukaG")]),
    ("zh", [("male", "VR6AewLTigWG4xSOukaG"), ("female", "21m00Tcm4TlvDq8ikWAM"),
            ("unknown", "VR6AewLTigWG4xSOukaG")]),
    ("hi", [("male", "VR6AewLTigWG4xSOukaG"), ("female", "21m00Tcm4TlvDq8ikWAM"),
            ("unknown", "VR6AewLTigWG4xSOukaG")]),
    ("ar", [("male", "VR6AewLTigWG4xSOukaG"), ("female", "21m00Tcm4TlvDq8ikWAM"),
            ("unknown", "VR6AewLTigWG4xSOukaG")]) ]

/-- `dict.get(key, default)` for the string-valued tables above. -/
def tableGet (m : List (String × String)) (k : String) (dflt : String) : String :=
  ((m.find? (fun e => e.1 == k)).map Prod.snd).getD dflt

/-- Lookup of the per-language table (`voice_mapping.get(base_language, {})`). -/
def languageTable (base : String) : List (String × String) :=
  (((voiceMapping.find? (fun e => e.1 == base)).map Prod.snd)).getD []

/-- `TTSService._get_voice_for_language_and_gender`
(src/services/tts_service.py:161-169): take the base language code
(before any `-`), look up the gender entry, falling back to the
language's `unknown` entry and then the global default. -/
def baseLanguage (language : String) : String :=
  strLower ⟨language.data.takeWhile (fun c => c != '-')⟩

def getVoiceForLanguageAndGender (language gender : String) : String :=
  tableGet (languageTable (baseLanguage language)) gender
    (tableGet (languageTable (baseLanguage language)) "unknown" defaultVoiceId)

/-- `TTSService._get_voice_for_language` (src/services/tts_service.py:171-173). -/
def getVoiceForLanguage (language : String) : String :=
  getVoiceForLanguageAndGender language "unknown"

/-- Voice-id selection inside `_generate_speech_with_timing_sync`
(src/services/tts_service.py:274-277): a segment's `matched_voice_id` when
present and non-empty (`if not voice_id:` also treats `''` as absent),
otherwise the generic per-language fallback voice. -/
def segmentVoiceId (matched : Option String) (lang : String) : String :=
  match matched with
  | some v => if v = "" then getVoiceForLanguage lang else v
  | none => getVoiceForLanguage lang

/-- Claim C2: the `No voices found supporting language` hard failure raised
inside `_match_speakers_to_voices` is swallowed by the function's own
`except:` handler, which returns an empty mapping; downstream, segments
without a `matched_voice_id` are synthesized with the generic per-language
fallback voice.  Concretely: one profiled speaker, a catalog whose only
voice verifies only `en`, target language `es` — the body errors, the
wrapper returns `{}`, and synthesis would proceed with the generic Spanish
voice `ErXwobaYiN019PkySvjV` instead of surfacing `NoVoiceForLanguage`. -/
theorem no_voice_for_language_swallowed :
    matchSpeakersToVoicesBody [("SPEAKER_00", [])]
        [⟨"21m00Tcm4TlvDq8ikWAM", "Rachel", [], ["en"]⟩] "es"
      = Except.error "No voices found supporting language: es" ∧
    matchSpeakersToVoices [("SPEAKER_00", [])]
        [⟨"21m00Tcm4TlvDq8ikWAM", "Rachel", [], ["en"]⟩] "es" = [] ∧
    segmentVoiceId none "es" = "ErXwobaYiN019PkySvjV" :=
  ⟨rfl, rfl, rfl⟩

lemma sortCandidates_perm (score : Profile → Voice → ℚ) (el : List Voice) (p : Profile) :
    List.Perm (sortCandidates score el p) (el.map (fun v => (v, score p v))) :=
  List.perm_insertionSort _ _

lemma sortCandidates_ne_nil (score : Profile → Voice → ℚ) {el : List Voice} (p : Profile)
    (hel : el ≠ []) : sortCandidates score el p ≠ [] := by
  intro hc
  have hlen : (sortCandidates score el p).length = el.length := by
    rw [(sortCandidates_perm score el p).length_eq, List.length_map]
  rw [hc] at hlen
  exact hel (List.length_eq_zero.mp hlen.symm)

lemma sortCandidates_sorted (score : Profile → Voice → ℚ) (el : List Voice) (p : Profile) :
    List.Sorted (fun a b : Voice × ℚ => b.2 ≤ a.2) (sortCandidates score el p) := by
  haveI : IsTotal (Voice × ℚ) (fun a b => b.2 ≤ a.2) := ⟨fun a b => le_total b.2 a.2⟩
  haveI : IsTrans (Voice × ℚ) (fun a b => b.2 ≤ a.2) := ⟨fun a b c hab hbc => le_trans hbc hab⟩
  exact List.sorted_insertionSort _ _

lemma mem_sortCandidates {score : Profile → Voice → ℚ} {el : List Voice} {p : Profile}
    {v : Voice} {s : ℚ} (h : (v, s) ∈ sortCandidates score el p) :
    v ∈ el ∧ s = score p v := by
  unfold sortCandidates at h
  have hm := (List.mem_insertionSort _).mp h
  obtain ⟨u, hu, he⟩ := List.mem_map.mp hm
  cases he
  exact ⟨hu, rfl⟩

lemma sortCandidates_mem_of_mem {score : Profile → Voice → ℚ} {el : List Voice} {p : Profile}
    {v : Voice} (h : v ∈ el) : (v, score p v) ∈ sortCandidates score el p := by
  unfold sortCandidates
  exact (List.mem_insertionSort _).mpr (List.mem_map_of_mem _ h)

lemma pickVoice_some {used : List String} :
    ∀ {l : List (Voice × ℚ)} {v : Voice} {s : ℚ},
      pickVoice used l = some (v, s) → (v, s) ∈ l ∧ v.voice_id ∉ used := by
  intro l
  induction l with
  | nil => intro v s h; exact absurd h (by simp [pickVoice])
  | cons hd tl ih =>
    intro v s h
    obtain ⟨w, t⟩ := hd
    rw [pickVoice] at h
    by_cases hw : w.voice_id ∈ used
    · rw [if_pos hw] at h
      obtain ⟨hm, hn⟩ := ih h
      exact ⟨List.mem_cons_of_mem _ hm, hn⟩
    · rw [if_neg hw] at h
      cases h
      exact ⟨List.mem_cons_self _ _, hw⟩

lemma pickVoice_none {used : List String} :
    ∀ {l : List (Voice × ℚ)},
      pickVoice used l = none ↔ ∀ x ∈ l, x.1.voice_id ∈ used := by
  intro l
  induction l with
  | nil => simp [pickVoice]
  | cons hd tl ih =>
    obtain ⟨w, t⟩ := hd
    rw [pickVoice]
    by_cases hw : w.voice_id ∈ used
    · rw [if_pos hw]
      simp [ih, hw]
    · rw [if_neg hw]
      simp [hw]

lemma assignVoices_ok (score : Profile → Voice → ℚ) (el : List Voice) (hel : el ≠ []) :
    ∀ (speakers : List (String × Profile)) (used : List String),
      ∃ out, assignVoices score el speakers used = Except.ok out ∧
        out.map Prod.fst = speakers.map Prod.fst ∧
        ∀ e ∈ out, e.2.1 ∈ el := by
  intro speakers
  induction speakers with
  | nil => intro used; exact ⟨[], rfl, rfl, by simp⟩
  | cons sp rest ih =>
    intro used
    obtain ⟨name, p⟩ := sp
    cases hpick : pickVoice used (sortCandidates score el p) with
    | some vs =>
      obtain ⟨v, s⟩ := vs
      obtain ⟨out, hout, hfst, hmem⟩ := ih (v.voice_id :: used)
      refine ⟨(name, v, s) :: out, ?_, ?_, ?_⟩
      · simp only [assignVoices, hpick, hout, Except.map]
      · simp [hfst]
      · intro e he
        rcases List.mem_cons.mp he with rfl | he2
        · exact (mem_sortCandidates (pickVoice_some hpick).1).1
        · exact hmem e he2
    | none =>
      cases hsc : sortCandidates score el p with
      | nil => exact absurd hsc (sortCandidates_ne_nil score p hel)
      | cons hd tl =>
        obtain ⟨v, s⟩ := hd
        obtain ⟨out, hout, hfst, hmem⟩ := ih used
        have hpick2 : pickVoice used ((v, s) :: tl) = none := hsc ▸ hpick
        refine ⟨(name, v, s) :: out, ?_, ?_, ?_⟩
        · simp only [assignVoices, hsc, hpick2, hout, Except.map]
        · simp [hfst]
        · intro e he
          rcases List.mem_cons.mp he with rfl | he2
          · have hm : ((v, s) : Voice × ℚ) ∈ sortCandidates score el p := by
              rw [hsc]; exact List.mem_cons_self _ _
            exact (mem_sortCandidates hm).1
          · exact hmem e he2

lemma filter_length_cons_used (ids : List String) (i : String) (used : List String)
    (hnd : ids.Nodup) (hi : i ∈ ids) (hiu : i ∉ used) :
    (ids.filter (fun j => decide (j ∉ i :: used))).length + 1
      = (ids.filter (fun j => decide (j ∉ used))).length := by
  induction ids with
  | nil => cases hi
  | cons a rest ih =>
    rcases List.mem_cons.mp hi with rfl | hmem
    · have hir : i ∉ rest := (List.nodup_cons.mp hnd).1
      have hfe : rest.filter (fun j => decide (j ∉ i :: used))
          = rest.filter (fun j => decide (j ∉ used)) := by
        apply List.filter_congr
        intro x hx
        have hxi : x ≠ i := fun hc => hir (hc ▸ hx)
        apply decide_eq_decide.mpr
        simp [List.mem_cons, hxi]
      rw [@List.filter_cons_of_neg String (fun j => decide (j ∉ i :: used)) i rest (by simp),
        @List.filter_cons_of_pos String (fun j => decide (j ∉ used)) i rest
          (decide_eq_true hiu),
        hfe, List.length_cons]
    · have ha : a ≠ i := fun hc => (List.nodup_cons.mp hnd).1 (hc ▸ hmem)
      have hrest := ih (List.nodup_cons.mp hnd).2 hmem
      by_cases hau : a ∈ used
      · have h1 : a ∉ (i :: used) → False := fun hcon => hcon (List.mem_cons_of_mem _ hau)
        rw [@List.filter_cons_of_neg String (fun j => decide (j ∉ i :: used)) a rest
            (by simpa using h1),
          @List.filter_cons_of_neg String (fun j => decide (j ∉ used)) a rest
            (by simpa using hau)]
        exact hrest
      · have h1 : a ∉ i :: used := by
          intro hcon
          rcases List.mem_cons.mp hcon with hce | hcu
          · exact ha hce
          · exact hau hcu
        rw [@List.filter_cons_of_pos String (fun j => decide (j ∉ i :: used)) a rest
            (decide_eq_true h1),
          @List.filter_cons_of_pos String (fun j => decide (j ∉ used)) a rest
            (decide_eq_true hau), List.length_cons, List.length_cons]
        omega

lemma assignVoices_nodup (score : Profile → Voice → ℚ) (el : List Voice)
    (hnd : (el.map Voice.voice_id).Nodup) :
    ∀ (speakers : List (String × Profile)) (used : List String)
      (out : List (String × Voice × ℚ)),
      assignVoices score el speakers used = Except.ok out →
      speakers.length
        ≤ ((el.map Voice.voice_id).filter (fun i => decide (i ∉ used))).length →
      (out.map (fun e => e.2.1.voice_id)).Nodup ∧
        ∀ i ∈ out.map (fun e => e.2.1.voice_id), i ∉ used := by
  intro speakers
  induction speakers with
  | nil =>
    intro used out hout hlen
    simp only [assignVoices] at hout
    cases hout
    simp
  | cons sp rest ih =>
    intro used out hout hlen
    obtain ⟨name, p⟩ := sp
    have hpos : 0 < ((el.map Voice.voice_id).filter (fun i => decide (i ∉ used))).length := by
      calc 0 < rest.length + 1 := Nat.succ_pos _
        _ = ((name, p) :: rest).length := by simp
        _ ≤ _ := hlen
    obtain ⟨idv, hidf⟩ := List.exists_mem_of_length_pos hpos
    have hidmem : idv ∈ el.map Voice.voice_id := List.mem_of_mem_filter hidf
    have hidnot : idv ∉ used := by
      have := List.of_mem_filter hidf
      simpa using this
    obtain ⟨v, hv, rfl⟩ := List.mem_map.mp hidmem
    cases hpick : pickVoice used (sortCandidates score el p) with
    | none =>
      exfalso
      have hall := (pickVoice_none).mp hpick (v, score p v) (sortCandidates_mem_of_mem hv)
      exact hidnot hall
    | some vs =>
      obtain ⟨w, s⟩ := vs
      obtain ⟨hwmem, hwnot⟩ := pickVoice_some hpick
      obtain ⟨hwel, hws⟩ := mem_sortCandidates hwmem
      simp only [assignVoices, hpick] at hout
      cases hrec : assignVoices score el rest (w.voice_id :: used) with
      | error e => rw [hrec] at hout; simp [Except.map] at hout
      | ok outRec =>
        rw [hrec] at hout
        simp only [Except.map, Except.ok.injEq] at hout
        have hlen2 : rest.length
            ≤ ((el.map Voice.voice_id).filter
                (fun i => decide (i ∉ w.voice_id :: used))).length := by
          have hdrop := filter_length_cons_used (el.map Voice.voice_id) w.voice_id used hnd
            (List.mem_map_of_mem _ hwel) hwnot
          have hlen' : rest.length + 1
              ≤ ((el.map Voice.voice_id).filter (fun i => decide (i ∉ used))).length := by
            simpa using hlen
          omega
        obtain ⟨hndRec, hnotRec⟩ := ih (w.voice_id :: used) outRec hrec hlen2
        subst hout
        constructor
        · simp only [List.map_cons]
          refine List.nodup_cons.mpr ⟨?_, hndRec⟩
          intro hcon
          exact (hnotRec _ hcon) (List.mem_cons_self _ _)
        · intro x hx
          simp only [List.map_cons, List.mem_cons] at hx
          rcases hx with rfl | hx2
          · exact hwnot
          · exact fun hc => (hnotRec x hx2) (List.mem_cons_of_mem _ hc)

lemma selectVoice_exhausted (score : Profile → Voice → ℚ) (el : List Voice)
    (hel : el ≠ []) (p : Profile) (used : List String)
    (hall : ∀ v ∈ el, v.voice_id ∈ used) :
    ∃ v s, selectVoice score el used p = some (v, s) ∧ s = score p v ∧
      ∀ w ∈ el, score p w ≤ s := by
  have hpick : pickVoice used (sortCandidates score el p) = none := by
    rw [pickVoice_none]
    intro x hx
    obtain ⟨v, s⟩ := x
    exact hall v (mem_sortCandidates hx).1
  cases hsc : sortCandidates score el p with
  | nil => exact absurd hsc (sortCandidates_ne_nil score p hel)
  | cons hd tl =>
    obtain ⟨v, s⟩ := hd
    have hm : ((v, s) : Voice × ℚ) ∈ sortCandidates score el p := by
      rw [hsc]; exact List.mem_cons_self _ _
    obtain ⟨hvel, hvs⟩ := mem_sortCandidates hm
    refine ⟨v, s, ?_, hvs, ?_⟩
    · unfold selectVoice
      rw [hpick, hsc]
      rfl
    · intro w hw
      have hwmem : (w, score p w) ∈ sortCandidates score el p := sortCandidates_mem_of_mem hw
      rw [hsc] at hwmem
      rcases List.mem_cons.mp hwmem with heq | hmem2
      · cases heq
        exact le_refl _
      · have hsorted := sortCandidates_sorted score el p
        rw [hsc] at hsorted
        exact List.rel_of_sorted_cons hsorted _ hmem2

/-- Claim C6: with at least one language-eligible voice in the catalog
(and distinct catalog voice ids), the matcher succeeds and returns an
assignment covering every profiled speaker, each with an eligible voice;
no voice id is assigned twice while speakers do not outnumber the eligible
voices; and a speaker processed when every eligible voice is already used
receives the globally best-scoring voice for their profile. -/
theorem voice_assignment_invariant (speakers : List (String × Profile)) (voices : List Voice)
    (lang : String)
    (hel : voices.filter (supportsLanguage lang) ≠ [])
    (hnd : (voices.map Voice.voice_id).Nodup) :
    ∃ out,
      matchSpeakersToVoicesBody speakers voices lang = Except.ok out ∧
      matchSpeakersToVoices speakers voices lang = out ∧
      out.map Prod.fst = speakers.map Prod.fst ∧
      (∀ e ∈ out, e.2.1 ∈ voices.filter (supportsLanguage lang)) ∧
      (speakers.length ≤ (voices.filter (supportsLanguage lang)).length →
        (out.map (fun e => e.2.1.voice_id)).Nodup) ∧
      (∀ (p : Profile) (used : List String),
        (∀ v ∈ voices.filter (supportsLanguage lang), v.voice_id ∈ used) →
        ∃ v s,
          selectVoice calculateVoiceMatchScore (voices.filter (supportsLanguage lang)) used p
            = some (v, s) ∧
          ∀ w ∈ voices.filter (supportsLanguage lang), calculateVoiceMatchScore p w ≤ s) := by
  have hndel : ((voices.filter (supportsLanguage lang)).map Voice.voice_id).Nodup :=
    List.Nodup.sublist (List.Sublist.map _ (List.filter_sublist _)) hnd
  obtain ⟨out, hout, hfst, hmem⟩ :=
    assignVoices_ok calculateVoiceMatchScore (voices.filter (supportsLanguage lang)) hel
      speakers []
  have hbody : matchSpeakersToVoicesBody speakers voices lang = Except.ok out := by
    unfold matchSpeakersToVoicesBody
    rw [if_neg (by simpa [List.isEmpty_iff] using hel)]
    exact hout
  refine ⟨out, hbody, ?_, hfst, hmem, ?_, ?_⟩
  · unfold matchSpeakersToVoices
    rw [hbody]
  · intro hcount
    have hfself : (((voices.filter (supportsLanguage lang)).map Voice.voice_id).filter
        (fun i => decide (i ∉ ([] : List String))))
        = (voices.filter (supportsLanguage lang)).map Voice.voice_id := by
      apply List.filter_eq_self.mpr
      intro a _
      simp
    have hlen0 : speakers.length
        ≤ (((voices.filter (supportsLanguage lang)).map Voice.voice_id).filter
            (fun i => decide (i ∉ ([] : List String)))).length := by
      rw [hfself, List.length_map]
      exact hcount
    exact (assignVoices_nodup calculateVoiceMatchScore _ hndel speakers [] out hout hlen0).1
  · intro p used hall
    obtain ⟨v, s, hsel, hscore, hmax⟩ :=
      selectVoice_exhausted calculateVoiceMatchScore _ hel p used hall
    exact ⟨v, s, hsel, hmax⟩

/-- Claim C6 (witness): the invariant applied to one profiled speaker and
a one-voice catalog verifying the target language. -/
theorem voice_assignment_invariant_witness :
    ([(⟨"v1", "VoiceA", [], ["es"]⟩ : Voice)].filter (supportsLanguage "es") ≠ []) ∧
    (([(⟨"v1", "VoiceA", [], ["es"]⟩ : Voice)].map Voice.voice_id).Nodup) ∧
    (∃ out,
      matchSpeakersToVoicesBody [("SPEAKER_00", [])] [⟨"v1", "VoiceA", [], ["es"]⟩] "es"
        = Except.ok out ∧
      matchSpeakersToVoices [("SPEAKER_00", [])] [⟨"v1", "VoiceA", [], ["es"]⟩] "es" = out ∧
      out.map Prod.fst = [("SPEAKER_00", ([] : Profile))].map Prod.fst ∧
      (∀ e ∈ out, e.2.1 ∈ [(⟨"v1", "VoiceA", [], ["es"]⟩ : Voice)].filter (supportsLanguage "es")) ∧
      ([("SPEAKER_00", ([] : Profile))].length
          ≤ ([(⟨"v1", "VoiceA", [], ["es"]⟩ : Voice)].filter (supportsLanguage "es")).length →
        (out.map (fun e => e.2.1.voice_id)).Nodup) ∧
      (∀ (p : Profile) (used : List String),
        (∀ v ∈ [(⟨"v1", "VoiceA", [], ["es"]⟩ : Voice)].filter (supportsLanguage "es"),
          v.voice_id ∈ used) →
        ∃ v s,
          selectVoice calculateVoiceMatchScore
              ([(⟨"v1", "VoiceA", [], ["es"]⟩ : Voice)].filter (supportsLanguage "es")) used p
            = some (v, s) ∧
          ∀ w ∈ [(⟨"v1", "VoiceA", [], ["es"]⟩ : Voice)].filter (supportsLanguage "es"),
            calculateVoiceMatchScore p w ≤ s)) :=
  ⟨by decide, by decide,
    voice_assignment_invariant [("SPEAKER_00", [])] [⟨"v1", "VoiceA", [], ["es"]⟩] "es"
      (by decide) (by decide)⟩

/-- Drop one leading quote character (`"` or `'`), as one alternative of
the cleanup regex `^["\x27]|["\x27]$`. -/
def dropLeadQuote (l : List Char) : List Char :=
  match l with
  | c :: rest => if c = '"' ∨ c = '\x27' then rest else l
  | [] => l

/-- `re.sub(r'^["\x27]|["\x27]$', '', s)`: remove one leading and one
trailing quote character. -/
def stripQuoteEnds (s : String) : String :=
  ⟨(dropLeadQuote (dropLeadQuote s.data).reverse).reverse⟩

/-- The response cleanup applied to a successful GPT translation
(src/services/timing_aware_dubber.py:166-169 and
src/services/translator.py:187-191): `.strip()` then quote removal. -/
def cleanupResponse (s : String) : String :=
  stripQuoteEnds (strTrim s)

/-- `TimingAwareDubber._fallback_translation`
(src/services/timing_aware_dubber.py:177-194): call Google Translate
(modelled by the oracle `goog`); re-raise failure as
`Fallback translation failed`. -/
def fallbackTranslation (goog : String → Except String String) (text : String) :
    Except String String :=
  match goog text with
  | Except.ok t => Except.ok t
  | Except.error e => Except.error ("Fallback translation failed: " ++ e)

/-- `TimingAwareDubber._gpt_timing_aware_translation`
(src/services/timing_aware_dubber.py:112-175): without an API key, or when
the GPT call raises, fall back to Google Translate; a successful GPT
response is cleaned up and returned.  (A failure of the fallback raised
inside the `try:` block is caught and retried by the same fallback, which
deterministically fails again — modelled as a single fallback call.) -/
def gptTimingAwareTranslation (hasKey : Bool) (gpt goog : String → Except String String)
    (text : String) : Except String String :=
  if hasKey = false then fallbackTranslation goog text
  else
    match gpt text with
    | Except.ok t => Except.ok (cleanupResponse t)
    | Except.error _ => fallbackTranslation goog text

/-- `Translator._gpt_timing_aware_translate`
(src/services/translator.py:109-196): no fallback tier at all — a missing
key or a failed GPT call re-raises as
`GPT timing-aware translation failed`. -/
def translatorGptTranslate (hasKey : Bool) (gpt : String → Except String String)
    (text : String) : Except String String :=
  if hasKey = false then
    Except.error
      "GPT timing-aware translation failed: OPENAI_API_KEY environment variable not set"
  else
    match gpt text with
    | Except.ok t => Except.ok (cleanupResponse t)
    | Except.error e => Except.error ("GPT timing-aware translation failed: " ++ e)

/-- Claim C7 (counterexample): with both backends failing, the non-empty
input `"hello"` is NOT passed through — an exception propagates instead;
and a GPT response consisting of two quote characters is cleaned to the
empty string, so a non-empty input can yield an empty translation. -/
theorem translation_passthrough_counterexample :
    gptTimingAwareTranslation true (fun _ => Except.error "rate limited")
        (fun _ => Except.error "network down") "hello"
      = Except.error "Fallback translation failed: network down" ∧
    (Except.error "Fallback translation failed: network down" : Except String String)
      ≠ Except.ok "hello" ∧
    gptTimingAwareTranslation true (fun _ => Except.ok "\x27\x27")
        (fun _ => Except.error "network down") "hello"
      = Except.ok "" := by
  refine ⟨rfl, ?_, rfl⟩
  intro h
  exact Except.noConfusion h

/-- Claim C7 (amended): translation is a two-tier chain without
pass-through.  A successful GPT call returns its cleaned response (with no
emptiness check); a failed GPT call or missing key falls back to Google
Translate; when both tiers fail the error propagates to the caller rather
than returning the original text; and `Translator`'s variant has no second
tier at all. -/
theorem translation_fallback_chain (gpt goog : String → Except String String)
    (text : String) :
    (∀ t, gpt text = Except.ok t →
      gptTimingAwareTranslation true gpt goog text = Except.ok (cleanupResponse t)) ∧
    (∀ e, gpt text = Except.error e →
      gptTimingAwareTranslation true gpt goog text = fallbackTranslation goog text) ∧
    (gptTimingAwareTranslation false gpt goog text = fallbackTranslation goog text) ∧
    (∀ e e2, gpt text = Except.error e → goog text = Except.error e2 →
      gptTimingAwareTranslation true gpt goog text
        = Except.error ("Fallback translation failed: " ++ e2)) ∧
    (∀ e, gpt text = Except.error e →
      translatorGptTranslate true gpt text
        = Except.error ("GPT timing-aware translation failed: " ++ e)) := by
  refine ⟨?_, ?_, ?_, ?_, ?_⟩
  · intro t h
    simp [gptTimingAwareTranslation, h]
  · intro e h
    simp [gptTimingAwareTranslation, h]
  · simp [gptTimingAwareTranslation]
  · intro e e2 h h2
    simp [gptTimingAwareTranslation, fallbackTranslation, h, h2]
  · intro e h
    simp [translatorGptTranslate, h]

/-- Claim C7 (witness): both tiers failing on the concrete input `"hi"`
propagates the fallback error. -/
theorem translation_fallback_chain_witness :
    gptTimingAwareTranslation true (fun _ => Except.error "a") (fun _ => Except.error "b") "hi"
      = Except.error ("Fallback translation failed: " ++ "b") :=
  (translation_fallback_chain (fun _ => Except.error "a") (fun _ => Except.error "b")
    "hi").2.2.2.1 "a" "b" rfl rfl

/-- A translated segment dict as consumed by
`TTSService._generate_speech_with_timing_sync`
(src/services/tts_service.py:266-333): translated text, original timing
and the matched voice id (absent when voice matching produced nothing). -/
structure TimedSeg where
  translated_text : String
  original_duration : ℚ
  start : ℚ
  stop : ℚ
  matched_voice_id : Option String
deriving DecidableEq

/-- The on-disk TTS cache directory: a map from cache key to audio.  The
source keys files by `md5(f"{text}_{voice_id}")`; md5 is modelled as the
identity on that string. -/
abbrev Cache := List (String × Audio)

/-- `os.path.exists(cache_file)` + `AudioSegment.from_mp3(cache_file)`. -/
def cacheLookup (c : Cache) (k : String) : Option Audio :=
  (c.find? (fun e => e.1 == k)).map Prod.snd

/-- `segment_audio.export(cache_file)`: write-once keyed store (later
writes shadow earlier ones, as file overwrite would). -/
def cacheInsert (c : Cache) (k : String) (a : Audio) : Cache :=
  (k, a) :: c

/-- The fetch-or-generate step of `_generate_speech_with_timing_sync`
(src/services/tts_service.py:281-318): return the cached clip for
`f"{text}_{voice_id}"` if present, otherwise call the TTS backend
(oracle `tts`) and save the fresh clip to the cache — before any speed
adjustment. -/
def fetchAudio (tts : String → String → Audio) (c : Cache) (text vid : String) :
    Audio × Cache :=
  match cacheLookup c (text ++ "_" ++ vid) with
  | some a => (a, c)
  | none => (tts text vid, cacheInsert c (text ++ "_" ++ vid) (tts text vid))

/-- One iteration of the segment loop of
`_generate_speech_with_timing_sync` (src/services/tts_service.py:266-333):
blank text is skipped; otherwise the voice is resolved, the clip fetched
from cache or generated (and cached), and speed adjustment — applied only
when enabled and the segment has a positive original duration — produces
the output clip without touching the cache. -/
def processSegment (tts : String → String → Audio) (lang : String) (adjustSpeed : Bool)
    (c : Cache) (seg : TimedSeg) : Cache × Option AClip :=
  if strTrim seg.translated_text = "" then (c, none)
  else
    let fa := fetchAudio tts c seg.translated_text (segmentVoiceId seg.matched_voice_id lang)
    let outAudio :=
      if adjustSpeed = true ∧ 0 < seg.original_duration then
        adjustAudio fa.1 seg.original_duration
      else fa.1
    (fa.2, some ⟨some outAudio, seg.start, seg.stop⟩)

/-- The full segment loop, threading the cache. -/
def generateLoop (tts : String → String → Audio) (lang : String) (adjustSpeed : Bool) :
    Cache → List TimedSeg → Cache × List AClip
  | c, [] => (c, [])
  | c, seg :: rest =>
    match processSegment tts lang adjustSpeed c seg with
    | (c2, none) => generateLoop tts lang adjustSpeed c2 rest
    | (c2, some clip) =>
      let r := generateLoop tts lang adjustSpeed c2 rest
      (r.1, clip :: r.2)

/-- `TTSService._generate_speech_with_timing_sync`
(src/services/tts_service.py:251-345): per-segment synthesis with caching
and optional speed adjustment, then timeline assembly. -/
def generateSpeechWithTimingSync (tts : String → String → Audio) (lang : String)
    (adjustSpeed : Bool) (c : Cache) (segs : List TimedSeg) : Cache × List Piece :=
  let r := generateLoop tts lang adjustSpeed c segs
  (r.1, combineAudioSegments r.2)

lemma fetchAudio_cached (tts : String → String → Audio) (c : Cache) (text vid : String) :
    cacheLookup (fetchAudio tts c text vid).2 (text ++ "_" ++ vid)
      = some (fetchAudio tts c text vid).1 := by
  unfold fetchAudio
  cases h : cacheLookup c (text ++ "_" ++ vid) with
  | some a => exact h
  | none => simp [cacheLookup, cacheInsert]

lemma fetchAudio_of_lookup {tts : String → String → Audio} {c : Cache} {text vid : String}
    {a : Audio} (h : cacheLookup c (text ++ "_" ++ vid) = some a) :
    fetchAudio tts c text vid = (a, c) := by
  unfold fetchAudio
  rw [h]

/-- Claim C9: the cache entry for a `(text, voice)` pair is written before
speed adjustment and is never modified by it.  A second segment with the
same text and voice retrieves exactly the first segment's pre-adjustment
audio; the cache after processing holds that pre-adjustment audio under
the segment's key; and the resulting cache is independent of the
segment's original duration, timing, and of the `adjust_speed` flag. -/
theorem tts_cache_pre_adjustment (tts : String → String → Audio) (lang : String)
    (adjustSpeed : Bool) (c0 : Cache) (s1 s2 : TimedSeg)
    (htext : s2.translated_text = s1.translated_text)
    (hvoice : s2.matched_voice_id = s1.matched_voice_id)
    (hnb : strTrim s1.translated_text ≠ "") :
    ((fetchAudio tts (processSegment tts lang adjustSpeed c0 s1).1 s2.translated_text
        (segmentVoiceId s2.matched_voice_id lang)).1
      = (fetchAudio tts c0 s1.translated_text
          (segmentVoiceId s1.matched_voice_id lang)).1) ∧
    (cacheLookup (processSegment tts lang adjustSpeed c0 s1).1
        (s1.translated_text ++ "_" ++ segmentVoiceId s1.matched_voice_id lang)
      = some (fetchAudio tts c0 s1.translated_text
          (segmentVoiceId s1.matched_voice_id lang)).1) ∧
    (∀ d st sp, (processSegment tts lang adjustSpeed c0
        { s1 with original_duration := d, start := st, stop := sp }).1
      = (processSegment tts lang adjustSpeed c0 s1).1) ∧
    ((processSegment tts lang true c0 s1).1 = (processSegment tts lang false c0 s1).1) := by
  have hc1 : (processSegment tts lang adjustSpeed c0 s1).1
      = (fetchAudio tts c0 s1.translated_text
          (segmentVoiceId s1.matched_voice_id lang)).2 := by
    simp [processSegment, hnb]
  have hl : cacheLookup (processSegment tts lang adjustSpeed c0 s1).1
      (s1.translated_text ++ "_" ++ segmentVoiceId s1.matched_voice_id lang)
      = some (fetchAudio tts c0 s1.translated_text
          (segmentVoiceId s1.matched_voice_id lang)).1 := by
    rw [hc1]
    exact fetchAudio_cached tts c0 _ _
  refine ⟨?_, hl, ?_, ?_⟩
  · rw [htext, hvoice, fetchAudio_of_lookup hl]
  · intro d st sp
    simp [processSegment, hnb]
  · simp [processSegment, hnb]

/-- Claim C9 (witness): two segments sharing text `"hola"` and voice
`"v9"` with different target durations, processed through a concrete
backend from an empty cache. -/
theorem tts_cache_pre_adjustment_witness :
    ((⟨"hola", 3, 5, 8, some "v9"⟩ : TimedSeg).translated_text
        = (⟨"hola", 2, 0, 2, some "v9"⟩ : TimedSeg).translated_text) ∧
    (strTrim ("hola") ≠ "") ∧
    ((fetchAudio (fun _ _ => ⟨0, 1⟩)
        (processSegment (fun _ _ => ⟨0, 1⟩) "es" true []
          (⟨"hola", 2, 0, 2, some "v9"⟩ : TimedSeg)).1
        (⟨"hola", 3, 5, 8, some "v9"⟩ : TimedSeg).translated_text
        (segmentVoiceId (⟨"hola", 3, 5, 8, some "v9"⟩ : TimedSeg).matched_voice_id "es")).1
      = (fetchAudio (fun _ _ => ⟨0, 1⟩) [] "hola" (segmentVoiceId (some "v9") "es")).1) := by
  have h := tts_cache_pre_adjustment (fun _ _ => ⟨0, 1⟩) "es" true []
    ⟨"hola", 2, 0, 2, some "v9"⟩ ⟨"hola", 3, 5, 8, some "v9"⟩ rfl rfl (by decide)
  exact ⟨rfl, by decide, h.1⟩
